import Mathlib

/-!
Shallow embedding of `src/parse.py`: a script that enriches a curated list of
project entries with a "last activity" date fetched from the GitHub API, with
CRAN packages mapped to a fixed sentinel date.  The embedding models

* `extract_repo` (the anchored regex over URLs),
* `get_cran_publication_date`,
* `get_last_commit` (the retry loop, parameterised by an oracle of API
  responses; the returned trace records the result string, the number of
  `g.get_repo` lookup calls made, and the list of `time.sleep` durations),
* `Project.run` (one worker thread's body),
* the module-level pipeline: the parse loop (which calls `p.start()` on every
  project as it is parsed), the batch loop (which calls `p.start()` again on
  each project), and the final result assembly.

`threading.Thread.start` raises `RuntimeError("threads can only be started
once")` when invoked a second time on the same thread object, even after the
thread has finished; the pipeline model therefore lives in `Except String`.
-/

namespace ParsePy

/-- `p = c` as the first characters, and so on: `needle` is a prefix of `hay`
(character lists; used to embed Python's substring operator). -/
def startsWithL : List Char → List Char → Bool
  | [], _ => true
  | _ :: _, [] => false
  | p :: ps, c :: cs => p = c && startsWithL ps cs

/-- `needle` occurs contiguously inside `hay` (Python's `needle in hay`). -/
def occursIn (needle : List Char) : List Char → Bool
  | [] => startsWithL needle []
  | c :: cs => startsWithL needle (c :: cs) || occursIn needle cs

/-- Python's `pat in s` on strings. -/
def containsSub (s pat : String) : Bool := occursIn pat.data s.data

/-- A character of the regex class `[\w-]` (owner part of
`^https://github.com/([\w-]+/[-\w\.]+)$`).  Python's `\w` also accepts
non-ASCII word characters; URLs in this repository are ASCII, and the model
restricts `\w` to `[A-Za-z0-9_]`. -/
def isOwnerChar (c : Char) : Bool := c.isAlphanum || c = '_' || c = '-'

/-- A character of the regex class `[-\w\.]` (repo part of the pattern). -/
def isRepoChar (c : Char) : Bool := c.isAlphanum || c = '_' || c = '-' || c = '.'

/-- Drop the literal `lit` from the front of `s`; `none` when `s` does not
start with `lit` (embeds matching the literal part of the anchored regex). -/
def dropLit : List Char → List Char → Option (List Char)
  | [], s => some s
  | _ :: _, [] => none
  | p :: ps, c :: cs => if c = p then dropLit ps cs else none

/-- Does the list contain a `'/'`? -/
def hasSlash : List Char → Bool
  | [] => false
  | c :: cs => c = '/' || hasSlash cs

/-- Split `cs` at its unique `'/'`: `some (a, b)` when `cs = a ++ '/' :: b`
and neither `a` nor `b` contains `'/'`; `none` otherwise.  Because the owner
class `[\w-]` and the repo class `[-\w\.]` both exclude `'/'`, the regex
`([\w-]+/[-\w\.]+)$` can only match a remainder with exactly one slash. -/
def splitOnce : List Char → Option (List Char × List Char)
  | [] => none
  | c :: rest =>
    if c = '/' then
      if hasSlash rest then none else some ([], rest)
    else
      match splitOnce rest with
      | some (a, b) => some (c :: a, b)
      | none => none

/-- The literal run of the pattern `^https://github.com/([\w-]+/[-\w\.]+)$`
before its unescaped `.`: in the source regex the dot of `github.com` is NOT
escaped, so it is the wildcard metacharacter, matching any single
character except a newline. -/
def hostHead : String := "https://github"

/-- The literal run of the pattern between the unescaped `.` and group 1. -/
def hostTail : String := "com/"

/-- Match the host part `https://github.com/` of the pattern, where the `.`
is the unescaped wildcard: the literal `https://github`, then any one
character other than `'\n'`, then the literal `com/`; returns the remainder
of the input. -/
def dropHost (cs : List Char) : Option (List Char) :=
  match dropLit hostHead.data cs with
  | none => none
  | some rest =>
    match rest with
    | [] => none
    | c :: rest' => if c = '\n' then none else dropLit hostTail.data rest'

/-- Match `^https://github.com/([\w-]+/[-\w\.]+)$` against the character list
of the URL (with the unescaped host dot read as a one-character wildcard and
`$` read as end of input), returning group 1. -/
def extractRepoList (cs : List Char) : Option (List Char) :=
  match dropHost cs with
  | none => none
  | some rest =>
    match splitOnce rest with
    | none => none
    | some (a, b) =>
      if !a.isEmpty && !b.isEmpty && a.all isOwnerChar && b.all isRepoChar then
        some rest
      else none

/-- `extract_repo` of `src/parse.py` (lines 16-22): `re.match` the anchored
pattern; on a match return group 1 (`owner/repo`), else `''`.  Python's `$`
also matches just before a single trailing newline, which the second branch
reproduces. -/
def extract_repo (url : String) : String :=
  match extractRepoList url.data with
  | some g => ⟨g⟩
  | none =>
    if url.data.getLast? = some '\n' then
      match extractRepoList url.data.dropLast with
      | some g => ⟨g⟩
      | none => ""
    else ""

/-- `get_cran_publication_date` of `src/parse.py` (lines 25-31). -/
def get_cran_publication_date (package_url : String) : String :=
  if containsSub package_url "cran.r-project.org" then "1999-01-01" else ""

/-- Outcome of one `g.get_repo(repo)` / `get_commits` lookup, as distinguished
by the `try`/`except` clauses of `get_last_commit`:
`ok date` is a successful lookup whose newest commit timestamp formats to
`date`; `rateLimitExceeded d` is `RateLimitExceededException`, where `d` is
the value of `reset_time - time.time()` observed by the handler (seconds,
modelled as an integer); `githubException s` is any other `GithubException`
with HTTP status `s`; `other` is any other exception. -/
inductive ApiResponse where
  | ok (date : String)
  | rateLimitExceeded (resetMinusNow : Int)
  | githubException (status : Nat)
  | other
  deriving DecidableEq, Repr

/-- `max_retries` of `get_last_commit` (line 39). -/
def max_retries : Nat := 3

/-- `base_delay` of `get_last_commit` (line 40), in seconds. -/
def base_delay : Int := 1

/-- Trace of one `get_last_commit` call: the returned string, the number of
lookup attempts (`g.get_repo` calls) made, and the `time.sleep` durations in
order. -/
structure FetchTrace where
  result : String
  calls : Nat
  sleeps : List Int
  deriving DecidableEq, Repr

/-- The `for attempt in range(max_retries)` loop of `get_last_commit`
(lines 42-73).  `resp k` is the outcome of the `(k+1)`-st lookup;
`remaining` is `max_retries - attempt`.  On `RateLimitExceededException` the
code sleeps `max((reset_time - time.time()) + 10, 60)` seconds and
`continue`s; on a 404 it returns `''`; on a 403 it sleeps
`base_delay * 2 ** attempt` and `continue`s; on any other error it returns
`''`.  Both `continue`s advance `attempt`; when the loop exhausts, line 73
returns `''`. -/
def fetchLoop (resp : Nat → ApiResponse) :
    Nat → Nat → Nat → List Int → FetchTrace
  | 0, _, calls, sleeps => ⟨"", calls, sleeps⟩
  | remaining + 1, attempt, calls, sleeps =>
    match resp calls with
    | .ok date => ⟨date, calls + 1, sleeps⟩
    | .rateLimitExceeded d =>
      fetchLoop resp remaining (attempt + 1) (calls + 1)
        (sleeps ++ [max (d + 10) 60])
    | .githubException status =>
      if status = 404 then ⟨"", calls + 1, sleeps⟩
      else if status = 403 then
        fetchLoop resp remaining (attempt + 1) (calls + 1)
          (sleeps ++ [base_delay * 2 ^ attempt])
      else ⟨"", calls + 1, sleeps⟩
    | .other => ⟨"", calls + 1, sleeps⟩

/-- `get_last_commit` of `src/parse.py` (lines 34-73), parameterised by the
oracle of API responses.  An empty `repo` returns `''` immediately with no
lookup and no sleep (lines 36-37). -/
def get_last_commit (resp : Nat → ApiResponse) (repo : String) : FetchTrace :=
  if repo = "" then ⟨"", 0, []⟩
  else fetchLoop resp max_retries 0 0 []

/-- One list item parsed from `README.md`: `m.group(1)` is the name,
`m.group(2)` the URL, `m.group(3)` the description; `sectionPath` is the
heading breadcrumb joined by `' > '` (the `section` key of the row). -/
structure Entry where
  name : String
  sectionPath : String
  url : String
  description : String
  deriving DecidableEq, Repr

/-- The dict built by `Project.run` (lines 100-109), one row of the output
CSV; `sectionPath` models the `section` key. -/
structure Row where
  project : String
  sectionPath : String
  last_commit : String
  url : String
  description : String
  github : Bool
  cran : Bool
  repo : String
  deriving DecidableEq, Repr

instance : Inhabited Row :=
  ⟨{ project := "", sectionPath := "", last_commit := "", url := "",
     description := "", github := false, cran := false, repo := "" }⟩

/-- `Project.run` of `src/parse.py` (lines 84-109), parameterised by the API
oracle of this worker.  Returns the `regs` dict together with the number of
lookup calls the worker issued (0 means no network access). -/
def projectRun (resp : Nat → ApiResponse) (e : Entry) : Row × Nat :=
  let is_github := containsSub e.url "github.com"
  let is_cran := containsSub e.url "cran.r-project.org"
  let repo := extract_repo e.url
  let fetched :=
    if is_cran && repo = "" then
      ({ result := get_cran_publication_date e.url, calls := 0, sleeps := [] } : FetchTrace)
    else get_last_commit resp repo
  ({ project := e.name, sectionPath := e.sectionPath,
     last_commit := fetched.result, url := e.url, description := e.description,
     github := is_github, cran := is_cran, repo := repo }, fetched.calls)

/-- One `Project` thread object: the entry it was built from, whether
`start()` has already been called on it, and its `regs` slot.  In the model a
started thread's `regs` already holds the row its `run()` computes; timing is
irrelevant to the properties proved here, which only depend on the `started`
flag and on the final `regs` contents. -/
structure ProjectThread where
  entry : Entry
  started : Bool
  regs : Option Row
  deriving DecidableEq, Repr

/-- `threading.Thread.start`: raises `RuntimeError` when the thread was
already started (even if it has since finished). -/
def threadStart (p : ProjectThread) : Except String ProjectThread :=
  if p.started then Except.error "threads can only be started once"
  else Except.ok { p with started := true }

/-- The parse loop of `src/parse.py` (lines 121-126), restricted to the list
items it recognises: for each entry a `Project` is constructed, `p.start()`
is called at once (line 125) — so the thread is already started when the
loop ends — and the project is appended to `projects`.  `resp i` is the API
oracle of the `(i+1)`-st entry's worker. -/
def parseLoop (resp : Nat → Nat → ApiResponse) : Nat → List Entry → List ProjectThread
  | _, [] => []
  | i, e :: es =>
    { entry := e, started := true, regs := some (projectRun (resp i) e).1 }
      :: parseLoop resp (i + 1) es

/-- `batch_size` of `src/parse.py` (line 142). -/
def batch_size : Nat := 10

/-- The inner `for p in batch: p.start()` (lines 148-149).  The first
`RuntimeError` propagates out of the script. -/
def startBatch : List ProjectThread → Except String (List ProjectThread)
  | [] => Except.ok []
  | p :: ps => do
    let p' ← threadStart p
    let ps' ← startBatch ps
    Except.ok (p' :: ps')

/-- The batch loop of `src/parse.py` (lines 143-160): take the next
`batch_size` projects, `start()` each, poll until none is alive, sleep 2
seconds, move to the next batch.  The liveness polling and the pauses do not
affect the properties proved here and are not recorded. -/
def batchLoop : List ProjectThread → Except String (List ProjectThread)
  | [] => Except.ok []
  | p :: ps => do
    let batch' ← startBatch ((p :: ps).take batch_size)
    let rest' ← batchLoop ((p :: ps).drop batch_size)
    Except.ok (batch' ++ rest')
  termination_by l => l.length
  decreasing_by
    simp [batch_size]
    omega

/-- The module-level pipeline of `src/parse.py` on an already-parsed entry
list: the parse loop (threads started at parse time), the batch loop
(threads started again), then `projects = [p.regs for p in projects]` and the
CSV written from that list in order (lines 112-164).  An uncaught exception
aborts the script before any output is written. -/
def run_pipeline (resp : Nat → Nat → ApiResponse) (entries : List Entry) :
    Except String (List Row) := do
  let projects := parseLoop resp 0 entries
  let projects' ← batchLoop projects
  Except.ok (projects'.map fun p => p.regs.getD default)

end ParsePy

namespace ParsePy

/-- One loop step on a successful lookup (line 44-46). -/
theorem fetchLoop_ok (resp : Nat → ApiResponse) (r attempt calls : Nat)
    (sleeps : List Int) (date : String) (h : resp calls = ApiResponse.ok date) :
    fetchLoop resp (r + 1) attempt calls sleeps = ⟨date, calls + 1, sleeps⟩ := by
  simp [fetchLoop, h]

/-- One loop step on `RateLimitExceededException` (lines 47-54). -/
theorem fetchLoop_rateLimited (resp : Nat → ApiResponse) (r attempt calls : Nat)
    (sleeps : List Int) (d : Int) (h : resp calls = ApiResponse.rateLimitExceeded d) :
    fetchLoop resp (r + 1) attempt calls sleeps =
      fetchLoop resp r (attempt + 1) (calls + 1) (sleeps ++ [max (d + 10) 60]) := by
  simp [fetchLoop, h]

/-- One loop step on a 404 `GithubException` (lines 55-58). -/
theorem fetchLoop_notFound (resp : Nat → ApiResponse) (r attempt calls : Nat)
    (sleeps : List Int) (h : resp calls = ApiResponse.githubException 404) :
    fetchLoop resp (r + 1) attempt calls sleeps = ⟨"", calls + 1, sleeps⟩ := by
  simp [fetchLoop, h]

/-- One loop step on a 403 `GithubException` (lines 59-64). -/
theorem fetchLoop_forbidden (resp : Nat → ApiResponse) (r attempt calls : Nat)
    (sleeps : List Int) (h : resp calls = ApiResponse.githubException 403) :
    fetchLoop resp (r + 1) attempt calls sleeps =
      fetchLoop resp r (attempt + 1) (calls + 1)
        (sleeps ++ [base_delay * 2 ^ attempt]) := by
  simp [fetchLoop, h]

/-- The loop makes at most `remaining` further lookups and at most `remaining`
further sleeps. -/
theorem fetchLoop_bounds (resp : Nat → ApiResponse) :
    ∀ remaining attempt calls : Nat, ∀ sleeps : List Int,
      (fetchLoop resp remaining attempt calls sleeps).calls ≤ calls + remaining ∧
      (fetchLoop resp remaining attempt calls sleeps).sleeps.length ≤
        sleeps.length + remaining := by
  intro remaining
  induction remaining with
  | zero => intro attempt calls sleeps; simp [fetchLoop]
  | succ r ih =>
    intro attempt calls sleeps
    cases hr : resp calls with
    | ok date => simp [fetchLoop, hr]
    | rateLimitExceeded d =>
      have h := ih (attempt + 1) (calls + 1) (sleeps ++ [max (d + 10) 60])
      rw [fetchLoop_rateLimited resp r attempt calls sleeps d hr]
      simp only [List.length_append, List.length_cons, List.length_nil] at h
      omega
    | githubException status =>
      by_cases h4 : status = 404
      · subst h4
        rw [fetchLoop_notFound resp r attempt calls sleeps hr]
        simp only []
        omega
      · by_cases h3 : status = 403
        · subst h3
          have h := ih (attempt + 1) (calls + 1)
            (sleeps ++ [base_delay * 2 ^ attempt])
          rw [fetchLoop_forbidden resp r attempt calls sleeps hr]
          simp only [List.length_append, List.length_cons, List.length_nil] at h
          omega
        · simp [fetchLoop, hr, h4, h3]
    | other => simp [fetchLoop, hr]

/-- C4 (counterexample): the claim says a rate-limit wait is not counted as a
retry attempt and the fetcher loops back indefinitely until the limit
resets, so with three rate-limited lookups followed by a succeeding one the
fetch would return the success date; the code instead consumes its whole
retry budget on the three rate-limit waits and returns `''` after exactly
`max_retries = 3` lookups, never issuing the fourth. -/
theorem C4_rate_limit_exhausts_budget :
    get_last_commit
      (fun n => if n < 3 then ApiResponse.rateLimitExceeded 0
                else ApiResponse.ok "2024-03-01") "a/a" =
      ⟨"", 3, [60, 60, 60]⟩ := by
  decide

/-- C4 (amended): a rate-limit wait is counted as a retry attempt, exactly
like a forbidden-response wait: `get_last_commit` never makes more than
`max_retries` (= 3) lookup calls nor more than `max_retries` sleeps, and when
every lookup raises "rate limit exceeded" (with `reset_time - now = d`), the
fetcher waits `max (d + 10) 60` seconds three times and then returns the
empty date. -/
theorem C4_rate_limit_wait_is_an_attempt (resp : Nat → ApiResponse)
    (repo : String) (d : Int) :
    (get_last_commit resp repo).calls ≤ max_retries ∧
    (get_last_commit resp repo).sleeps.length ≤ max_retries ∧
    get_last_commit (fun _ => ApiResponse.rateLimitExceeded d) "a/a" =
      ⟨"", 3, [max (d + 10) 60, max (d + 10) 60, max (d + 10) 60]⟩ := by
  refine ⟨?_, ?_, rfl⟩ <;>
  · by_cases h : repo = ""
    · simp [get_last_commit, h, max_retries]
    · have hb := fetchLoop_bounds resp max_retries 0 0 []
      simp only [List.length_nil, Nat.zero_add] at hb
      simp [get_last_commit, h]
      omega

/-- The sleep duration the spec prescribes after a rate-limit error, in
seconds: `max(reset_time - now, 60) + 10` (spec §4.2, step 3), as a function
of `reset_time - now`.  The code computes `max((reset_time - now) + 10, 60)`
instead: the two differ whenever `reset_time - now < 60`. -/
def specRateLimitSleep (resetMinusNow : Int) : Int := max resetMinusNow 60 + 10

/-- C5 (counterexample): with a mocked reset time equal to `now`
(`reset_time - now = 0`) and a succeeding second lookup, the claim's formula
prescribes a 70-second sleep, but the code sleeps
`max((reset_time - now) + 10, 60) = 60` seconds. -/
theorem C5_sleep_formula_differs :
    (get_last_commit
      (fun n => if n = 0 then ApiResponse.rateLimitExceeded 0
                else ApiResponse.ok "2024-03-01") "a/a").sleeps = [60] ∧
    specRateLimitSleep 0 = 70 ∧ ¬ ((60 : Int) = specRateLimitSleep 0) := by
  decide

/-- C5 (amended): when the first lookup raises "rate limit exceeded" with
`reset_time - now = d` and the second lookup succeeds with `date`, the
fetcher sleeps exactly `max((reset_time - now) + 10, 60)` seconds and then
performs exactly one subsequent retry, returning `date` after two lookups in
total. -/
theorem C5_rate_limit_sleep_amount (resp : Nat → ApiResponse)
    (repo date : String) (d : Int) (hrepo : repo ≠ "")
    (h0 : resp 0 = ApiResponse.rateLimitExceeded d)
    (h1 : resp 1 = ApiResponse.ok date) :
    get_last_commit resp repo = ⟨date, 2, [max (d + 10) 60]⟩ := by
  unfold get_last_commit
  rw [if_neg hrepo]
  show fetchLoop resp (2 + 1) 0 0 [] = _
  rw [fetchLoop_rateLimited resp 2 0 0 [] d h0]
  show fetchLoop resp (1 + 1) 1 1 [max (d + 10) 60] = _
  rw [fetchLoop_ok resp 1 1 1 [max (d + 10) 60] date h1]

/-- C5 witness: rate-limit with `reset_time - now = 5` then success: one
60-second wait (the 60-second floor dominates `5 + 10`), two lookups. -/
theorem C5_rate_limit_sleep_amount_spot :
    get_last_commit
      (fun n => if n = 0 then ApiResponse.rateLimitExceeded 5
                else ApiResponse.ok "2024-03-01") "a/a" =
      ⟨"2024-03-01", 2, [60]⟩ := by
  have h := C5_rate_limit_sleep_amount
    (fun n => if n = 0 then ApiResponse.rateLimitExceeded 5
              else ApiResponse.ok "2024-03-01") "a/a" "2024-03-01" 5
    (by decide) rfl rfl
  simpa using h

/-- C6: when every lookup raises "forbidden" (HTTP 403), the fetcher makes
exactly `max_retries = 3` lookup attempts, sleeping
`base_delay * 2 ^ attempt` seconds after each — the strictly increasing
delays 1 s, 2 s, 4 s — and after exhausting the retries returns the empty
date. -/
theorem C6_forbidden_exponential_backoff (resp : Nat → ApiResponse)
    (repo : String) (hrepo : repo ≠ "")
    (h0 : resp 0 = ApiResponse.githubException 403)
    (h1 : resp 1 = ApiResponse.githubException 403)
    (h2 : resp 2 = ApiResponse.githubException 403) :
    get_last_commit resp repo = ⟨"", 3, [1, 2, 4]⟩ := by
  unfold get_last_commit
  rw [if_neg hrepo]
  show fetchLoop resp (2 + 1) 0 0 [] = _
  rw [fetchLoop_forbidden resp 2 0 0 [] h0]
  show fetchLoop resp (1 + 1) 1 1 ([] ++ [base_delay * 2 ^ 0]) = _
  rw [fetchLoop_forbidden resp 1 1 1 ([] ++ [base_delay * 2 ^ 0]) h1]
  show fetchLoop resp (0 + 1) 2 2
    (([] ++ [base_delay * 2 ^ 0]) ++ [base_delay * 2 ^ 1]) = _
  rw [fetchLoop_forbidden resp 0 2 2
    (([] ++ [base_delay * 2 ^ 0]) ++ [base_delay * 2 ^ 1]) h2]
  simp [fetchLoop, base_delay]

/-- C6 witness: a constantly-403 oracle produces the trace
`("", 3 calls, sleeps [1, 2, 4])`. -/
theorem C6_forbidden_exponential_backoff_spot :
    get_last_commit (fun _ => ApiResponse.githubException 403) "a/a" =
      ⟨"", 3, [1, 2, 4]⟩ :=
  C6_forbidden_exponential_backoff (fun _ => ApiResponse.githubException 403)
    "a/a" (by decide) rfl rfl rfl

/-- C7: when the first lookup raises "not found" (HTTP 404), the fetcher
returns the empty date after exactly one lookup call, with no sleep and no
retry. -/
theorem C7_not_found_no_retry (resp : Nat → ApiResponse) (repo : String)
    (hrepo : repo ≠ "") (h0 : resp 0 = ApiResponse.githubException 404) :
    get_last_commit resp repo = ⟨"", 1, []⟩ := by
  unfold get_last_commit
  rw [if_neg hrepo]
  show fetchLoop resp (2 + 1) 0 0 [] = _
  rw [fetchLoop_notFound resp 2 0 0 [] h0]

/-- C7 witness: a constantly-404 oracle yields `("", 1 call, no sleeps)`. -/
theorem C7_not_found_no_retry_spot :
    get_last_commit (fun _ => ApiResponse.githubException 404) "a/a" =
      ⟨"", 1, []⟩ :=
  C7_not_found_no_retry (fun _ => ApiResponse.githubException 404) "a/a"
    (by decide) rfl

/-- Every thread the parse loop appends to `projects` has already been
started (line 125 runs `p.start()` before line 126 appends). -/
theorem parseLoop_all_started (resp : Nat → Nat → ApiResponse) :
    ∀ i entries, ((parseLoop resp i entries).all fun p => p.started) = true := by
  intro i entries
  induction entries generalizing i with
  | nil => simp [parseLoop]
  | cons e es ih => simp [parseLoop, ih]

/-- `startBatch` raises `RuntimeError` at its first thread when that thread
was already started. -/
theorem startBatch_error_of_started (p : ProjectThread) (ps : List ProjectThread)
    (h : p.started = true) :
    startBatch (p :: ps) = Except.error "threads can only be started once" := by
  simp [startBatch, threadStart, h, Bind.bind, Except.bind]

/-- The batch loop raises `RuntimeError` in its very first `p.start()` when
the head thread was already started. -/
theorem batchLoop_error_of_started (p : ProjectThread) (ps : List ProjectThread)
    (h : p.started = true) :
    batchLoop (p :: ps) = Except.error "threads can only be started once" := by
  rw [batchLoop]
  rw [show (p :: ps).take batch_size = p :: ps.take (batch_size - 1) from rfl]
  rw [startBatch_error_of_started p (ps.take (batch_size - 1)) h]
  rfl

/-- C1 (code evaluated at the failing input): on the spec's own end-to-end
example — entries A (GitHub), B (CRAN), C (unknown scheme), with an API that
would answer `2024-03-01` for every lookup — the pipeline raises
`RuntimeError: threads can only be started once` at the first batch's
`p.start()` (each thread was already started by the parse loop at line 125),
so it produces no output at all instead of one row per input entry. -/
theorem C1_spec_example_produces_no_rows :
    run_pipeline (fun _ _ => ApiResponse.ok "2024-03-01")
      [⟨"A", "", "https://github.com/a/a", "descA"⟩,
       ⟨"B", "", "https://cran.r-project.org/p", "descB"⟩,
       ⟨"C", "", "ftp://x", "descC"⟩] =
      Except.error "threads can only be started once" := by
  unfold run_pipeline
  simp only [parseLoop]
  rw [batchLoop_error_of_started _ _ rfl]
  rfl

/-- C2 (code evaluated at the failing input): the batch barrier is never
enforced — for every nonempty entry list, by the time the batch loop runs,
every worker thread has already been started by the parse loop (line 125),
so peak concurrency is the whole input size, not `batch_size`; the batch
loop's own `p.start()` (line 149) then raises `RuntimeError` on its first
thread. -/
theorem C2_all_threads_started_before_batch_loop (resp : Nat → Nat → ApiResponse)
    (e : Entry) (es : List Entry) :
    ((parseLoop resp 0 (e :: es)).all fun p => p.started) = true ∧
    batchLoop (parseLoop resp 0 (e :: es)) =
      Except.error "threads can only be started once" := by
  refine ⟨parseLoop_all_started resp 0 (e :: es), ?_⟩
  simp only [parseLoop]
  exact batchLoop_error_of_started _ _ rfl

/-- C3 (code evaluated at the failing input): for every nonempty input the
pipeline terminates abnormally: the second `p.start()` on the first project
raises `RuntimeError`, which is a scheduler-level error surfaced to the
caller, not a captured empty-date `FetchResult`, and no result set is
produced. -/
theorem C3_pipeline_raises_on_nonempty_input (resp : Nat → Nat → ApiResponse)
    (e : Entry) (es : List Entry) :
    run_pipeline resp (e :: es) =
      Except.error "threads can only be started once" := by
  unfold run_pipeline
  simp only [parseLoop]
  rw [batchLoop_error_of_started _ _ rfl]
  rfl

/-- `dropLit` succeeds on a string that starts with the literal. -/
theorem dropLit_append (p r : List Char) : dropLit p (p ++ r) = some r := by
  induction p with
  | nil => rfl
  | cons c cs ih => simp [dropLit, ih]

/-- `dropLit` only succeeds on a string that starts with the literal. -/
theorem dropLit_eq_some (p : List Char) :
    ∀ s r, dropLit p s = some r → s = p ++ r := by
  induction p with
  | nil => intro s r h; simpa [dropLit] using h
  | cons c cs ih =>
    intro s r h
    cases s with
    | nil => simp [dropLit] at h
    | cons d ds =>
      by_cases hd : d = c
      · subst hd
        rw [dropLit, if_pos rfl] at h
        simpa using ih ds r h
      · rw [dropLit, if_neg hd] at h
        cases h

/-- A character of the owner class `[\w-]` is not a slash. -/
theorem isOwnerChar_ne_slash (c : Char) (h : isOwnerChar c = true) : c ≠ '/' := by
  intro hc
  subst hc
  exact absurd h (by decide)

/-- A character of the repo class `[-\w\.]` is not a slash. -/
theorem isRepoChar_ne_slash (c : Char) (h : isRepoChar c = true) : c ≠ '/' := by
  intro hc
  subst hc
  exact absurd h (by decide)

/-- A slash-free list has `hasSlash = false`. -/
theorem hasSlash_eq_false (l : List Char) (h : ∀ c ∈ l, c ≠ '/') :
    hasSlash l = false := by
  induction l with
  | nil => rfl
  | cons c cs ih =>
    have hc : c ≠ '/' := h c (List.mem_cons_self c cs)
    have hcs := ih fun d hd => h d (List.mem_cons_of_mem c hd)
    simp [hasSlash, hc, hcs]

/-- `splitOnce` recovers the two halves of a string with a single slash. -/
theorem splitOnce_append (a b : List Char) (ha : ∀ c ∈ a, c ≠ '/')
    (hb : hasSlash b = false) : splitOnce (a ++ '/' :: b) = some (a, b) := by
  induction a with
  | nil => simp [splitOnce, hb]
  | cons c cs ih =>
    have hc : c ≠ '/' := ha c (List.mem_cons_self c cs)
    have ihh := ih fun d hd => ha d (List.mem_cons_of_mem c hd)
    simp [splitOnce, hc, ihh]

/-- When `splitOnce` succeeds, the input was the two halves joined by a
slash. -/
theorem splitOnce_eq_some :
    ∀ cs a b, splitOnce cs = some (a, b) → cs = a ++ '/' :: b := by
  intro cs
  induction cs with
  | nil => intro a b h; simp [splitOnce] at h
  | cons c rest ih =>
    intro a b h
    by_cases hc : c = '/'
    · subst hc
      rw [splitOnce, if_pos rfl] at h
      by_cases hs : hasSlash rest = true
      · rw [if_pos hs] at h; cases h
      · rw [if_neg hs] at h
        injection h with h
        injection h with h1 h2
        subst h1; subst h2
        rfl
    · rw [splitOnce, if_neg hc] at h
      cases hsp : splitOnce rest with
      | none => rw [hsp] at h; cases h
      | some ab =>
        obtain ⟨a', b'⟩ := ab
        rw [hsp] at h
        injection h with h
        injection h with h1 h2
        subst h2
        have := ih a' b' hsp
        rw [← h1, this]
        rfl

/-- The host matcher succeeds on `https://github` + any non-newline
character + `com/` and returns the remainder. -/
theorem dropHost_append (c : Char) (r : List Char) (hc : c ≠ '\n') :
    dropHost (hostHead.data ++ c :: (hostTail.data ++ r)) = some r := by
  unfold dropHost
  simp only [dropLit_append]
  simp [hc, dropLit_append]

/-- The host matcher only succeeds on inputs of exactly that shape. -/
theorem dropHost_eq_some (cs r : List Char) (h : dropHost cs = some r) :
    ∃ c, c ≠ '\n' ∧ cs = hostHead.data ++ c :: (hostTail.data ++ r) := by
  unfold dropHost at h
  split at h
  · cases h
  · rename_i rest hd
    split at h
    · cases h
    · rename_i c rest'
      by_cases hc : c = '\n'
      · rw [if_pos hc] at h
        cases h
      · rw [if_neg hc] at h
        have h2 := dropLit_eq_some hostTail.data rest' r h
        have h1 := dropLit_eq_some hostHead.data cs (c :: rest') hd
        exact ⟨c, hc, by rw [h1, h2]⟩

/-- Soundness of the regex match: a URL of the matched shape (with any
non-newline character in the wildcard host position) yields group 1
verbatim. -/
theorem extractRepoList_append (c : Char) (a b : List Char) (hc : c ≠ '\n')
    (ha : a ≠ []) (hb : b ≠ [])
    (hao : a.all isOwnerChar = true) (hbr : b.all isRepoChar = true) :
    extractRepoList (hostHead.data ++ c :: (hostTail.data ++ (a ++ '/' :: b))) =
      some (a ++ '/' :: b) := by
  have ha' : ∀ d ∈ a, d ≠ '/' := by
    intro d hd
    exact isOwnerChar_ne_slash d (by
      have := List.all_eq_true.mp hao d hd
      simpa using this)
  have hb' : hasSlash b = false := by
    refine hasSlash_eq_false b fun d hd => ?_
    exact isRepoChar_ne_slash d (by
      have := List.all_eq_true.mp hbr d hd
      simpa using this)
  simp only [extractRepoList, dropHost_append c (a ++ '/' :: b) hc,
    splitOnce_append a b ha' hb']
  simp [ha, hb, hao, hbr]

/-- Completeness of the regex match: whenever `extractRepoList` succeeds,
the input decomposes as `https://github` + one non-newline character +
`com/` + owner + `'/'` + repo, with both groups nonempty and inside their
character classes, and group 1 is returned verbatim. -/
theorem extractRepoList_eq_some (cs g : List Char)
    (h : extractRepoList cs = some g) :
    ∃ c a b, c ≠ '\n' ∧ g = a ++ '/' :: b ∧
      cs = hostHead.data ++ c :: (hostTail.data ++ (a ++ '/' :: b)) ∧
      a ≠ [] ∧ b ≠ [] ∧ a.all isOwnerChar = true ∧ b.all isRepoChar = true := by
  unfold extractRepoList at h
  split at h
  · cases h
  · rename_i rest hd
    split at h
    · cases h
    · rename_i ab a b hs
      split at h
      · rename_i hcond
        injection h with h
        subst h
        have h1 := splitOnce_eq_some rest a b hs
        obtain ⟨c, hc, h2⟩ := dropHost_eq_some cs rest hd
        simp only [Bool.and_eq_true, Bool.not_eq_true'] at hcond
        refine ⟨c, a, b, hc, h1, ?_, ?_, ?_, hcond.1.2, hcond.2⟩
        · rw [h2, h1]
        · simpa using hcond.1.1.1
        · simpa using hcond.1.1.2
      · cases h

/-- `extract_repo` on a URL of the matched shape returns `owner/repo`
verbatim. -/
theorem extract_repo_matched (c : Char) (a b : List Char) (hc : c ≠ '\n')
    (ha : a ≠ []) (hb : b ≠ [])
    (hao : a.all isOwnerChar = true) (hbr : b.all isRepoChar = true) :
    extract_repo ⟨hostHead.data ++ c :: (hostTail.data ++ (a ++ '/' :: b))⟩ =
      ⟨a ++ '/' :: b⟩ := by
  unfold extract_repo
  simp only [extractRepoList_append c a b hc ha hb hao hbr]

/-- C8 (counterexample): two deviations from the claim.  (i) No suffix
trimming: the claim says the repo name is trimmed of known suffixes, so
`https://github.com/acme/widget.git` would resolve to `acme/widget`; the
code returns `acme/widget.git` (the class `[-\w\.]` accepts the dot and
the suffix is kept).  (ii) The dot of `github.com` is unescaped in the
source regex, so it is a one-character wildcard: `https://github1com/a/b` —
a URL that does not match the claim's strict pattern
`https://github.com/owner/repo` — resolves to `a/b`, not to `""`. -/
theorem C8_no_trimming_and_wildcard_host_dot :
    (extract_repo "https://github.com/acme/widget.git" = "acme/widget.git" ∧
     "acme/widget.git" ≠ "acme/widget") ∧
    (extract_repo "https://github1com/a/b" = "a/b" ∧ "a/b" ≠ "") := by
  decide

/-- C8 (amended): `extract_repo` is a total function over strings, but the
pattern it accepts is `https://github` + any one non-newline character +
`com/owner/repo` — the dot of `github.com` is an unescaped regex wildcard —
and the matched `owner/repo` (owner nonempty over `[\w-]`, repo nonempty
over `[-\w\.]`) is returned exactly as matched, with no suffix trimming.
Conversely, for ASCII URLs — the embedding restricts Python's
Unicode-aware `\w` to its ASCII fragment `[A-Za-z0-9_]` — whenever the
result is not `""` the URL (up to one trailing newline, which Python's `$`
tolerates) had exactly that wildcard-host shape, so every ASCII URL not of
that shape, package-registry URLs and non-URLs included, yields `""`. -/
theorem C8_resolver_characterisation :
    (∀ c : Char, ∀ a b : List Char, c ≠ '\n' → a ≠ [] → b ≠ [] →
      a.all isOwnerChar = true → b.all isRepoChar = true →
      extract_repo ⟨hostHead.data ++ c :: (hostTail.data ++ (a ++ '/' :: b))⟩ =
        ⟨a ++ '/' :: b⟩) ∧
    (∀ url : String, (url.data.all fun ch => ch.toNat < 128) = true →
      extract_repo url ≠ "" →
      ∃ c : Char, ∃ a b : List Char, c ≠ '\n' ∧ a ≠ [] ∧ b ≠ [] ∧
        a.all isOwnerChar = true ∧ b.all isRepoChar = true ∧
        extract_repo url = ⟨a ++ '/' :: b⟩ ∧
        (url.data = hostHead.data ++ c :: (hostTail.data ++ (a ++ '/' :: b)) ∨
         url.data =
           (hostHead.data ++ c :: (hostTail.data ++ (a ++ '/' :: b))) ++
             ['\n'])) := by
  constructor
  · exact extract_repo_matched
  · intro url _hascii h
    rcases hg : extractRepoList url.data with _ | g
    · rcases hnl : url.data.getLast? with _ | lc
      · exfalso
        apply h
        unfold extract_repo
        simp [hg, hnl]
      · by_cases hlc : lc = '\n'
        · subst hlc
          rcases hg2 : extractRepoList url.data.dropLast with _ | g
          · exfalso
            apply h
            unfold extract_repo
            simp [hg, hnl, hg2]
          · obtain ⟨c, a, b, hc, hgab, hcs, ha, hb, hao, hbr⟩ :=
              extractRepoList_eq_some _ g hg2
            refine ⟨c, a, b, hc, ha, hb, hao, hbr, ?_, Or.inr ?_⟩
            · unfold extract_repo
              simp [hg, hnl, hg2, hgab]
            · rw [← hcs]
              exact (List.dropLast_append_getLast? '\n'
                (by simp [Option.mem_def, hnl])).symm
        · exfalso
          apply h
          unfold extract_repo
          simp [hg, hnl, hlc]
    · obtain ⟨c, a, b, hc, hgab, hcs, ha, hb, hao, hbr⟩ :=
        extractRepoList_eq_some _ g hg
      refine ⟨c, a, b, hc, ha, hb, hao, hbr, ?_, Or.inl hcs⟩
      unfold extract_repo
      simp [hg, hgab]

/-- C8 witness: `https://github.com/acme/widget` (wildcard position filled
by the actual dot) resolves to `acme/widget`. -/
theorem C8_resolver_characterisation_spot :
    extract_repo "https://github.com/acme/widget" = "acme/widget" := by
  have h := C8_resolver_characterisation.1 '.' "acme".data "widget".data
    (by decide) (by decide) (by decide) (by decide) (by decide)
  revert h
  decide

/-- C9: a package-registry entry (URL containing `cran.r-project.org`)
without a resolvable GitHub repository gets the fixed sentinel date
`1999-01-01` with zero lookup calls — regardless of the API oracle, i.e. of
network availability — and an entry whose URL is neither CRAN-hosted nor a
matching GitHub URL (e.g. `ftp://x`) gets the empty date, also with zero
lookup calls. -/
theorem C9_cran_sentinel_unknown_empty (resp : Nat → ApiResponse) (e : Entry) :
    (containsSub e.url "cran.r-project.org" = true → extract_repo e.url = "" →
      (projectRun resp e).1.last_commit = "1999-01-01" ∧
      (projectRun resp e).2 = 0) ∧
    (containsSub e.url "cran.r-project.org" = false → extract_repo e.url = "" →
      (projectRun resp e).1.last_commit = "" ∧ (projectRun resp e).2 = 0) := by
  constructor
  · intro hc hr
    simp [projectRun, hc, hr, get_cran_publication_date]
  · intro hc hr
    simp [projectRun, hc, hr, get_last_commit]

/-- C9 witness: the spec's entries B (`https://cran.r-project.org/p`) and C
(`ftp://x`), with an oracle that would fail every lookup. -/
theorem C9_cran_sentinel_unknown_empty_spot :
    ((projectRun (fun _ => ApiResponse.other)
        ⟨"B", "", "https://cran.r-project.org/p", "descB"⟩).1.last_commit =
      "1999-01-01" ∧
     (projectRun (fun _ => ApiResponse.other)
        ⟨"B", "", "https://cran.r-project.org/p", "descB"⟩).2 = 0) ∧
    ((projectRun (fun _ => ApiResponse.other)
        ⟨"C", "", "ftp://x", "descC"⟩).1.last_commit = "" ∧
     (projectRun (fun _ => ApiResponse.other)
        ⟨"C", "", "ftp://x", "descC"⟩).2 = 0) := by
  constructor
  · exact (C9_cran_sentinel_unknown_empty (fun _ => ApiResponse.other)
      ⟨"B", "", "https://cran.r-project.org/p", "descB"⟩).1 (by decide) (by decide)
  · exact (C9_cran_sentinel_unknown_empty (fun _ => ApiResponse.other)
      ⟨"C", "", "ftp://x", "descC"⟩).2 (by decide) (by decide)

/-- C10: the `github` and `cran` flags of an output row are substring checks
over the URL, independent of repository resolution; an entry whose URL
contains `github.com` but does not match the strict pattern gets
`github = true` with `repo = ""`, and when the URL is not CRAN-hosted its
`last_commit` is `""` with zero lookup calls. -/
theorem C10_flags_are_substring_checks (resp : Nat → ApiResponse) (e : Entry) :
    (projectRun resp e).1.github = containsSub e.url "github.com" ∧
    (projectRun resp e).1.cran = containsSub e.url "cran.r-project.org" ∧
    (containsSub e.url "github.com" = true → extract_repo e.url = "" →
     containsSub e.url "cran.r-project.org" = false →
      (projectRun resp e).1.github = true ∧ (projectRun resp e).1.repo = "" ∧
      (projectRun resp e).1.last_commit = "" ∧ (projectRun resp e).2 = 0) := by
  refine ⟨by simp [projectRun], by simp [projectRun], ?_⟩
  intro hg hr hc
  simp [projectRun, hg, hr, hc, get_last_commit]

/-- C10 witness: `https://github.com/a/b/c` contains `github.com` but has an
extra path segment, so the row has `github = true`, `repo = ""`,
`last_commit = ""`, and no lookup was made. -/
theorem C10_flags_are_substring_checks_spot :
    (projectRun (fun _ => ApiResponse.other)
        ⟨"D", "", "https://github.com/a/b/c", "descD"⟩).1.github = true ∧
    (projectRun (fun _ => ApiResponse.other)
        ⟨"D", "", "https://github.com/a/b/c", "descD"⟩).1.repo = "" ∧
    (projectRun (fun _ => ApiResponse.other)
        ⟨"D", "", "https://github.com/a/b/c", "descD"⟩).1.last_commit = "" ∧
    (projectRun (fun _ => ApiResponse.other)
        ⟨"D", "", "https://github.com/a/b/c", "descD"⟩).2 = 0 :=
  (C10_flags_are_substring_checks (fun _ => ApiResponse.other)
    ⟨"D", "", "https://github.com/a/b/c", "descD"⟩).2.2
    (by decide) (by decide) (by decide)

end ParsePy
